import Mathlib

/-!
Verification of the NeuralSignal-Classifier repository.

The TypeScript sources are shallowly embedded: a JS numeric matrix
`number[][]` becomes `List (List ℚ)` (real-number semantics; `Math.sqrt`
becomes `Real.sqrt`, so square roots live in `ℝ`), class instances become
explicit state records, methods become functions on those records, and a
`throw` becomes `Except.error` with a typed error.  JS `Map` objects become
association lists in insertion order.  Where JS produces `Infinity`
(`Math.min()` of an empty spread), the embedding uses `EReal`.
-/

/-- A neural-data matrix `number[][]`: a list of rows of rationals. -/
abbrev Matrix2 : Type := List (List ℚ)

/-- All rows have the length of the first row (the rectangularity check
several classifier variants enforce). -/
def rectangular (m : Matrix2) : Prop :=
  ∀ r ∈ m, r.length = (m.headD []).length

instance (m : Matrix2) : Decidable (rectangular m) := by
  unfold rectangular; infer_instance

/-- The error outcomes of the various `throw new Error(...)` sites. -/
inductive JsError : Type where
  /-- "Data cannot be empty" / "Neural data cannot be empty" / "Pattern cannot be empty" -/
  | emptyInput
  /-- "Classifier must be trained before making classifications" -/
  | notTrained
  /-- "All rows ... must have the same length" -/
  | raggedRows
  /-- "Pattern dimension mismatch" / "All training patterns must have the same dimensions" -/
  | dimensionMismatch
  /-- "Each pattern must have a valid label string" -/
  | invalidLabel
  /-- "Points must have the same dimensions" -/
  | pointDimsDiffer
  deriving DecidableEq, Repr

/-- Equality of `Except` results is decidable componentwise. -/
instance {e a : Type} [DecidableEq e] [DecidableEq a] : DecidableEq (Except e a)
  | .error e1, .error e2 => decidable_of_iff (e1 = e2) (by simp)
  | .error _, .ok _ => isFalse (by simp)
  | .ok _, .error _ => isFalse (by simp)
  | .ok a1, .ok a2 => decidable_of_iff (a1 = a2) (by simp)

/-- A labeled training pattern `{ pattern: number[][]; label: string }`. -/
structure NeuralPattern where
  pattern : Matrix2
  label : String
  deriving DecidableEq, Repr

/-- JS `Math.min(...l)` over the flattened values of a nonempty list,
with an arbitrary default for the (never consulted) empty case. -/
def jsMinQ : List ℚ → ℚ
  | [] => 0
  | x :: xs => xs.foldl min x

/-- JS `Math.max(...l)` over a nonempty list, arbitrary default when empty. -/
def jsMaxQ : List ℚ → ℚ
  | [] => 0
  | x :: xs => xs.foldl max x

/-- `map.get(k)` on a JS `Map` modelled as an insertion-ordered assoc list. -/
def jsMapGet {β : Type} (m : List (String × β)) (k : String) : Option β :=
  (m.find? (fun e => e.1 = k)).map (·.2)

/-- `map.set(k, v)`: replace the value at an existing key, else append. -/
def jsMapSet {β : Type} (m : List (String × β)) (k : String) (v : β) :
    List (String × β) :=
  if (m.find? (fun e => e.1 = k)).isSome then
    m.map (fun e => if e.1 = k then (k, v) else e)
  else
    m ++ [(k, v)]

namespace DataProcessor

/-- `DataProcessor.normalize` (src/utils/dataProcessor.ts and the identical
copy in src/config/index.ts): global min-max rescaling; `range = max - min || 1`. -/
def normalize (data : Matrix2) : Matrix2 :=
  if data = [] then []
  else
    let vals := data.flatten
    let min := jsMinQ vals
    let max := jsMaxQ vals
    let range := if max - min = 0 then 1 else max - min
    data.map (fun row => row.map (fun value => (value - min) / range))

/-- `DataProcessor.calculateMeans`: per-column mean over the rows
(missing entries of ragged rows read as 0, where JS would read `undefined`). -/
def calculateMeans (data : Matrix2) : List ℚ :=
  match data with
  | [] => []
  | r :: _ =>
      (List.range r.length).map
        (fun i => (data.map (fun row => row.getD i 0)).sum / data.length)

/-- `DataProcessor.calculateStandardDeviations`: per-column population
standard deviation, given the per-column means. -/
noncomputable def calculateStandardDeviations (data : Matrix2) (means : List ℚ) :
    List ℝ :=
  match data with
  | [] => []
  | r :: _ =>
      (List.range r.length).map
        (fun i =>
          Real.sqrt
            ((((data.map (fun row => ((row.getD i 0 : ℚ) : ℝ) - ((means.getD i 0 : ℚ) : ℝ))).map
                (fun d => d * d)).sum) / (data.length : ℝ)))

/-- One row of `DataProcessor.standardize`: `(value - means[i]) / (stdDevs[i] || 1)`,
walking the row with its column index. -/
noncomputable def standardizeRow (means : List ℚ) (stdDevs : List ℝ) :
    ℕ → List ℚ → List ℝ
  | _, [] => []
  | i, v :: vs =>
      (((v : ℝ) - ((means.getD i 0 : ℚ) : ℝ)) /
          (if stdDevs.getD i 0 = 0 then 1 else stdDevs.getD i 0)) ::
        standardizeRow means stdDevs (i + 1) vs

/-- `DataProcessor.standardize`: z-score normalization per column. -/
noncomputable def standardize (data : Matrix2) : List (List ℝ) :=
  if data = [] then []
  else
    let means := calculateMeans data
    let stdDevs := calculateStandardDeviations data means
    data.map (fun row => standardizeRow means stdDevs 0 row)

/-- The feature record produced by `DataProcessor.calculateFeatures`
(src/config/index.ts) for nonempty input. -/
structure Features where
  mean : ℚ
  variance : ℚ
  stdDev : ℝ
  min : ℚ
  max : ℚ
  avgChange : ℚ

/-- Mean absolute difference of consecutive flattened values. -/
def avgChangeOf (flattened : List ℚ) : ℚ :=
  if flattened.length ≤ 1 then 0
  else ((flattened.zip flattened.tail).map (fun p => |p.2 - p.1|)).sum /
    (flattened.length - 1 : ℚ)

/-- `DataProcessor.calculateFeatures`: `none` models the empty record `{}`
returned for a zero-row matrix; otherwise the six statistical fields. -/
noncomputable def calculateFeatures (data : Matrix2) : Option Features :=
  if data = [] then none
  else
    let flattened := data.flatten
    let mean := flattened.sum / (flattened.length : ℚ)
    let variance := (flattened.map (fun v => (v - mean) ^ 2)).sum / (flattened.length : ℚ)
    some
      { mean := mean
        variance := variance
        stdDev := Real.sqrt (variance : ℝ)
        min := jsMinQ flattened
        max := jsMaxQ flattened
        avgChange := avgChangeOf flattened }

end DataProcessor

/-- The accumulator step of the `if (distance < minDistance)` loops:
keep the current best, replace only on strictly better (smaller) key,
taking the first element when nothing has been selected yet (the JS loops
start from `Infinity`, so the first finite key always wins). -/
def minStep {α : Type} [LinearOrder α] (acc : Option (α × String)) (x : α × String) :
    Option (α × String) :=
  match acc with
  | none => some x
  | some b => if x.1 < b.1 then some x else acc

/-- The accumulator step of the `if (similarity > maxSimilarity)` loops
(the duals start from `-Infinity`). -/
def maxStep {α : Type} [LinearOrder α] (acc : Option (α × String)) (x : α × String) :
    Option (α × String) :=
  match acc with
  | none => some x
  | some b => if b.1 < x.1 then some x else acc

/-- `pattern.flat().reduce((sum, val) => sum + val, 0) / pattern.flat().length`. -/
def matMean (m : Matrix2) : ℚ :=
  m.flatten.sum / (m.flatten.length : ℚ)

namespace NeuralSignalClassifier

/-- The mutable state of a `NeuralSignalClassifier` instance. -/
structure State where
  patterns : List NeuralPattern
  deriving DecidableEq

/-- The statistics `analyzePattern` computes (`stdDev` is derived as
`Real.sqrt variance` where it is consumed). -/
structure Stats where
  mean : ℚ
  variance : ℚ
  max : ℚ
  min : ℚ
  deriving DecidableEq

/-- The statistics of `NeuralSignalClassifier.analyzePattern`, as a total
function (the empty-input guard lives in `analyzePattern`). -/
def analyzeStats (data : Matrix2) : Stats :=
  let flattened := data.flatten
  let mean := flattened.sum / (flattened.length : ℚ)
  { mean := mean
    variance := (flattened.map (fun v => (v - mean) ^ 2)).sum / (flattened.length : ℚ)
    max := jsMaxQ flattened
    min := jsMinQ flattened }

/-- `NeuralSignalClassifier.analyzePattern`: throws on a zero-row matrix. -/
def analyzePattern (data : Matrix2) : Except JsError Stats :=
  if data = [] then .error .emptyInput else .ok (analyzeStats data)

/-- `NeuralSignalClassifier.train`: `this.patterns = [...patterns]`. -/
def train (_st : State) (patterns : List NeuralPattern) : State :=
  { patterns := patterns }

/-- Euclidean distance between the statistical features of two patterns
(`stdDev = Math.sqrt(variance)`). -/
noncomputable def statsDistance (s t : Stats) : ℝ :=
  Real.sqrt (((s.mean : ℝ) - (t.mean : ℝ)) ^ 2 +
    (Real.sqrt (s.variance : ℝ) - Real.sqrt (t.variance : ℝ)) ^ 2 +
    ((s.max : ℝ) - (t.max : ℝ)) ^ 2 +
    ((s.min : ℝ) - (t.min : ℝ)) ^ 2)

/-- The classification loop of `NeuralSignalClassifier.classify`:
`analyzePattern` can throw on a stored empty pattern, so the loop is in
`Except`. -/
noncomputable def classifyLoop (inputStats : Stats) :
    List NeuralPattern → Option (ℝ × String) → Except JsError (Option (ℝ × String))
  | [], acc => .ok acc
  | p :: rest, acc =>
      match analyzePattern p.pattern with
      | .error e => .error e
      | .ok ps => classifyLoop inputStats rest (minStep acc (statsDistance inputStats ps, p.label))

/-- `NeuralSignalClassifier.classify`. -/
noncomputable def classify (st : State) (input : Matrix2) :
    Except JsError (Option String) :=
  if st.patterns = [] then .error .notTrained
  else
    match analyzePattern input with
    | .error e => .error e
    | .ok inputStats =>
        (classifyLoop inputStats st.patterns none).map (fun r => r.map (·.2))

/-- The distance `classify` assigns a stored pattern, as a function of the
query matrix. -/
noncomputable def queryDistance (input : Matrix2) (p : NeuralPattern) : ℝ :=
  statsDistance (analyzeStats input) (analyzeStats p.pattern)

end NeuralSignalClassifier

namespace BrainSignalClassifier

/-- `{ label: string; confidence: number }`. -/
structure ClassificationResult where
  label : String
  confidence : ℚ
  deriving DecidableEq, Repr

/-- The mutable state of the first `BrainSignalClassifier` variant
(src/classifier/index.ts, second class). -/
structure State where
  trainingData : List NeuralPattern
  patternDimensions : ℕ
  deriving DecidableEq

/-- The per-pattern validation loop of `train`: JS `!pattern.label` rejects
the empty string; nonempty patterns must be rectangular. -/
def validatePatterns : List NeuralPattern → Except JsError Unit
  | [] => .ok ()
  | p :: rest =>
      if p.label = "" then .error .invalidLabel
      else if ¬ rectangular p.pattern then .error .raggedRows
      else validatePatterns rest

/-- `BrainSignalClassifier.train` (first variant): rejects an empty pattern
list, validates each pattern, then replaces `trainingData` (this variant
does not record `patternDimensions` during training). -/
def train (st : State) (patterns : List NeuralPattern) : Except JsError State :=
  if patterns = [] then .error .emptyInput
  else
    match validatePatterns patterns with
    | .error e => .error e
    | .ok _ => .ok { st with trainingData := patterns }

/-- `similarity = 1 / (1 + Math.abs(patternMean - trainingMean))`. -/
def similarity (patternMean trainingMean : ℚ) : ℚ :=
  1 / (1 + |patternMean - trainingMean|)

/-- `BrainSignalClassifier.classify` (first variant). -/
def classify (st : State) (pattern : Matrix2) :
    Except JsError (Option ClassificationResult) :=
  if st.trainingData = [] then .error .notTrained
  else if pattern = [] then .error .emptyInput
  else if ¬ rectangular pattern then .error .raggedRows
  else if (pattern.headD []).length ≠ st.patternDimensions ∧ 0 < st.patternDimensions then
    .error .dimensionMismatch
  else
    let patternMean := matMean pattern
    .ok (((st.trainingData.foldl
        (fun acc tp => maxStep acc (similarity patternMean (matMean tp.pattern), tp.label))
        none)).map (fun x => ⟨x.2, x.1⟩))

end BrainSignalClassifier

namespace BrainSignalClassifier2

/-- The mutable state of the second `BrainSignalClassifier` variant
(src/classifier/index.ts, third class). -/
structure State where
  trainingData : List NeuralPattern
  patternDimensions : ℕ
  deriving DecidableEq

/-- `BrainSignalClassifier.train` (second variant): all patterns must share
the width of their first row; records that width as `patternDimensions`.
(The JS method assigns `trainingData` before validating; that difference is
observable only in the state left behind by a failed call, which nothing
here relies on.) -/
def train (_st : State) (patterns : List NeuralPattern) : Except JsError State :=
  if patterns = [] then .error .emptyInput
  else
    let firstLen := ((patterns.headD ⟨[], ""⟩).pattern.headD []).length
    if patterns.all (fun p => (p.pattern.headD []).length = firstLen) then
      .ok { trainingData := patterns, patternDimensions := firstLen }
    else .error .dimensionMismatch

/-- `BrainSignalClassifier.classify` (second variant):
`similarity = 1 - Math.abs(patternAvg - trainingAvg)`.  The `none` fallback
of the final match is unreachable because `trainingData` is nonempty. -/
def classify (st : State) (pattern : Matrix2) :
    Except JsError BrainSignalClassifier.ClassificationResult :=
  if st.trainingData = [] then .error .notTrained
  else if (pattern.headD []).length ≠ st.patternDimensions then .error .dimensionMismatch
  else
    let patternAvg := matMean pattern
    match st.trainingData.foldl
        (fun acc tp => maxStep acc (1 - |patternAvg - matMean tp.pattern|, tp.label))
        none with
    | some x => .ok ⟨x.2, x.1⟩
    | none => .ok ⟨"unknown", 0⟩

end BrainSignalClassifier2

namespace PatternAnalyzer

/-- The mutable state of a `PatternAnalyzer` instance. -/
structure State where
  patterns : List NeuralPattern
  deriving DecidableEq

/-- `PatternAnalyzer.train`. -/
def train (_st : State) (trainingData : List NeuralPattern) : State :=
  { patterns := trainingData }

/-- The inner column loop of `calculateEuclideanDistance`:
`(row1[j] || 0) - (row2[j] || 0)` squared, over the elementwise max width. -/
def rowSumSq : List ℚ → List ℚ → ℚ
  | [], [] => 0
  | [], b :: bs => (0 - b) ^ 2 + rowSumSq [] bs
  | a :: as, [] => (a - 0) ^ 2 + rowSumSq as []
  | a :: as, b :: bs => (a - b) ^ 2 + rowSumSq as bs

/-- The outer row loop of `calculateEuclideanDistance`: missing rows of the
shorter matrix are `pattern[i] || []`. -/
def matSumSq : Matrix2 → Matrix2 → ℚ
  | [], [] => 0
  | [], s :: ss => rowSumSq [] s + matSumSq [] ss
  | r :: rs, [] => rowSumSq r [] + matSumSq rs []
  | r :: rs, s :: ss => rowSumSq r s + matSumSq rs ss

/-- `PatternAnalyzer.calculateEuclideanDistance`: zero-padding Euclidean
distance over flattened matrices. -/
noncomputable def calculateEuclideanDistance (pattern1 pattern2 : Matrix2) : ℝ :=
  Real.sqrt ((matSumSq pattern1 pattern2 : ℚ) : ℝ)

/-- `{ label: string; confidence: number }` with a real-valued confidence. -/
structure MatchResult where
  label : String
  confidence : ℝ

/-- `PatternAnalyzer.findPatternMatches`: one candidate per stored pattern
with `confidence = Math.max(0, 1 - distance / 10)`, sorted by descending
confidence. -/
noncomputable def findPatternMatches (st : State) (data : Matrix2) : List MatchResult :=
  if st.patterns = [] then []
  else
    (st.patterns.map
        (fun tp =>
          { label := tp.label
            confidence := max 0 (1 - calculateEuclideanDistance data tp.pattern / 10) :
            MatchResult })).mergeSort
      (fun a b => decide (b.confidence ≤ a.confidence))

/-- `PatternAnalyzer.classify` returns all matches. -/
noncomputable def classify (st : State) (data : Matrix2) : List MatchResult :=
  findPatternMatches st data

end PatternAnalyzer

namespace AnomalyDetector

/-- The mutable state of an `AnomalyDetector` (src/classifier/anomalyDetector.ts):
two insertion-ordered maps. -/
structure State where
  thresholds : List (String × ℚ)
  referencePatterns : List (String × Matrix2)

/-- The constructor's default thresholds. -/
def mkDetector : State :=
  { thresholds := [("schizophrenia", 7/10), ("bipolar", 13/20), ("control", 1/2)]
    referencePatterns := [] }

/-- `AnomalyDetector.calculateAveragePattern`: per-column mean, width taken
from the first row. -/
def calculateAveragePattern (data : Matrix2) : List ℚ :=
  match data with
  | [] => []
  | r :: _ =>
      (List.range r.length).map
        (fun i => (data.map (fun row => row.getD i 0)).sum / (data.length : ℚ))

/-- `AnomalyDetector.calculateCosineSimilarity`. -/
noncomputable def calculateCosineSimilarity (a b : List ℚ) : ℝ :=
  if a.length ≠ b.length then 0
  else
    let dotProduct : ℚ := (List.zipWith (· * ·) a b).sum
    let magnitudeA : ℚ := (a.map (fun x => x * x)).sum
    let magnitudeB : ℚ := (b.map (fun x => x * x)).sum
    if magnitudeA = 0 ∨ magnitudeB = 0 then 0
    else (dotProduct : ℝ) / (Real.sqrt (magnitudeA : ℝ) * Real.sqrt (magnitudeB : ℝ))

/-- `AnomalyDetector.compareWithReferences`: one cosine similarity per
reference entry with at least one row. -/
noncomputable def compareWithReferences (st : State) (pattern : List ℚ) : List ℝ :=
  (st.referencePatterns.filter (fun e => e.2 ≠ [])).map
    (fun e => calculateCosineSimilarity pattern (calculateAveragePattern e.2))

/-- JS `Math.min(...l)`: `Infinity` (here `⊤ : EReal`) on the empty spread. -/
noncomputable def jsMinR (l : List ℝ) : EReal :=
  l.foldr (fun x acc => min (x : EReal) acc) ⊤

/-- `{ anomalyScore, isAnomalous, confidence }`; the score is an `EReal`
because `1 - Math.min()` can be `-Infinity`. -/
structure AnomalyResult where
  anomalyScore : EReal
  isAnomalous : Bool
  confidence : EReal

/-- `AnomalyDetector.detectAnomalies`: `anomalyScore = 1 - minSimilarity`,
`isAnomalous = anomalyScore > 0.3` (a fixed cutoff — the per-label
`thresholds` map is never consulted here), `confidence = min(1, score * 2)`. -/
noncomputable def detectAnomalies (st : State) (data : Matrix2) : AnomalyResult :=
  if data = [] then
    { anomalyScore := ((0 : ℝ) : EReal), isAnomalous := false
      confidence := ((0 : ℝ) : EReal) }
  else
    let avgPattern := calculateAveragePattern data
    let similarities := compareWithReferences st avgPattern
    let minSimilarity := jsMinR similarities
    let anomalyScore := 1 - minSimilarity
    { anomalyScore := anomalyScore
      isAnomalous := decide (((3/10 : ℝ) : EReal) < anomalyScore)
      confidence := min 1 (anomalyScore * 2) }

/-- `AnomalyDetector.addReferencePattern`: create the entry if absent, then
append the rows of `pattern` to it. -/
def addReferencePattern (st : State) (label : String) (pattern : Matrix2) : State :=
  let withKey :=
    if (jsMapGet st.referencePatterns label).isSome then st.referencePatterns
    else st.referencePatterns ++ [(label, [])]
  { st with
      referencePatterns :=
        withKey.map (fun e => if e.1 = label then (e.1, e.2 ++ pattern) else e) }

/-- `AnomalyDetector.updateThreshold`. -/
def updateThreshold (st : State) (condition : String) (threshold : ℚ) : State :=
  { st with thresholds := jsMapSet st.thresholds condition threshold }

/-- `AnomalyDetector.getThresholds` (returns a copy). -/
def getThresholds (st : State) : List (String × ℚ) :=
  st.thresholds

end AnomalyDetector

namespace AnomalyDetector2

/-- The state of the `AnomalyDetector` variant in the unnamed source file. -/
structure State where
  thresholds : List (String × ℚ)
  referencePatterns : List (String × Matrix2)

/-- `initializeThresholds`, run by the constructor. -/
def mkDetector : State :=
  { thresholds := [("schizophrenia", 7/10), ("bipolar", 13/20), ("control", 1/2)]
    referencePatterns := [] }

/-- `AnomalyDetector.calculateEuclideanDistance` (row version): throws when
the two points have different dimensions. -/
noncomputable def calculateEuclideanDistance (point1 point2 : List ℚ) :
    Except JsError ℝ :=
  if point1.length ≠ point2.length then .error .pointDimsDiffer
  else .ok (Real.sqrt (((List.zipWith (fun a b => (a - b) ^ 2) point1 point2).sum : ℚ) : ℝ))

/-- The accumulation loop of `calculateDeviations`: one Euclidean distance
per row pair, stopping at the first thrown error. -/
noncomputable def deviationsLoop : List (List ℚ × List ℚ) → Except JsError (List ℝ)
  | [] => .ok []
  | p :: rest =>
      match calculateEuclideanDistance p.1 p.2 with
      | .error e => .error e
      | .ok d =>
          match deviationsLoop rest with
          | .error e => .error e
          | .ok ds => .ok (d :: ds)

/-- `AnomalyDetector.calculateDeviations`: pairs rows of `data` with rows of
the registered reference (up to the shorter length) and measures their
Euclidean distance. -/
noncomputable def calculateDeviations (st : State) (data : Matrix2)
    (patternType : String) : Except JsError (List ℝ) :=
  let reference := (jsMapGet st.referencePatterns patternType).getD []
  deviationsLoop (data.zip reference)

/-- `AnomalyDetector.calculateAverage`: 0 on the empty list. -/
noncomputable def calculateAverage (values : List ℝ) : ℝ :=
  if values = [] then 0 else values.sum / (values.length : ℝ)

/-- `this.thresholds.get(patternType) || 0.5`: the JS `||` also replaces a
stored threshold of `0` by `0.5`. -/
def thresholdFor (st : State) (patternType : String) : ℚ :=
  match jsMapGet st.thresholds patternType with
  | none => 1/2
  | some t => if t = 0 then 1/2 else t

/-- `AnomalyDetector.getAnomalyScore`: the average deviation. -/
noncomputable def getAnomalyScore (st : State) (data : Matrix2)
    (patternType : String) : Except JsError ℝ :=
  (calculateDeviations st data patternType).map calculateAverage

/-- `AnomalyDetector.detectAnomalies` (boolean variant):
`avgDeviation > threshold` for the per-label threshold. -/
noncomputable def detectAnomalies (st : State) (data : Matrix2)
    (patternType : String) : Except JsError Bool :=
  (calculateDeviations st data patternType).map
    (fun deviations =>
      decide (((thresholdFor st patternType : ℚ) : ℝ) < calculateAverage deviations))

/-- `AnomalyDetector.setReferencePattern`. -/
def setReferencePattern (st : State) (patternType : String) (pattern : Matrix2) :
    State :=
  { st with referencePatterns := jsMapSet st.referencePatterns patternType pattern }

end AnomalyDetector2

section SelectionLemmas

variable {α β : Type} [LinearOrder α]

/-- Folding `maxStep` from a selected candidate yields either the candidate
(nothing later is strictly better) or the first strictly-better element,
which also dominates everything after it. -/
theorem maxStep_foldl_aux (f : β → α × String) :
    ∀ (t : List β) (b : α × String),
      ∃ r, t.foldl (fun acc p => maxStep acc (f p)) (some b) = some r ∧
        ((r = b ∧ ∀ y ∈ t, (f y).1 ≤ b.1) ∨
          (∃ t1 x t2, t = t1 ++ x :: t2 ∧ r = f x ∧ b.1 < (f x).1 ∧
            (∀ y ∈ t1, (f y).1 < (f x).1) ∧ (∀ y ∈ t2, (f y).1 ≤ (f x).1))) := by
  intro t
  induction t with
  | nil => exact fun b => ⟨b, rfl, Or.inl ⟨rfl, by simp⟩⟩
  | cons y t ih =>
    intro b
    by_cases h : b.1 < (f y).1
    · have hstep : (y :: t).foldl (fun acc p => maxStep acc (f p)) (some b)
          = t.foldl (fun acc p => maxStep acc (f p)) (some (f y)) := by
        simp [maxStep, h]
      obtain ⟨r, hr, hcase⟩ := ih (f y)
      refine ⟨r, by rw [hstep]; exact hr, Or.inr ?_⟩
      rcases hcase with ⟨hrb, hall⟩ | ⟨t1, x, t2, ht, hrx, hlt, h1, h2⟩
      · exact ⟨[], y, t, rfl, hrb, h, by simp, hall⟩
      · refine ⟨y :: t1, x, t2, by rw [ht]; simp, hrx, lt_trans h hlt, ?_, h2⟩
        intro z hz
        rcases List.mem_cons.mp hz with hz | hz
        · rw [hz]; exact hlt
        · exact h1 z hz
    · have hstep : (y :: t).foldl (fun acc p => maxStep acc (f p)) (some b)
          = t.foldl (fun acc p => maxStep acc (f p)) (some b) := by
        simp [maxStep, h]
      obtain ⟨r, hr, hcase⟩ := ih b
      refine ⟨r, by rw [hstep]; exact hr, ?_⟩
      rcases hcase with ⟨hrb, hall⟩ | ⟨t1, x, t2, ht, hrx, hlt, h1, h2⟩
      · refine Or.inl ⟨hrb, ?_⟩
        intro z hz
        rcases List.mem_cons.mp hz with hz | hz
        · rw [hz]; exact not_lt.mp h
        · exact hall z hz
      · refine Or.inr ⟨y :: t1, x, t2, by rw [ht]; simp, hrx, hlt, ?_, h2⟩
        intro z hz
        rcases List.mem_cons.mp hz with hz | hz
        · rw [hz]; exact lt_of_le_of_lt (not_lt.mp h) hlt
        · exact h1 z hz

/-- The `similarity > maxSimilarity` loop started from `null` selects the
first element attaining the maximum key: everything before it is strictly
smaller, everything overall is no larger. -/
theorem maxStep_foldl_spec (f : β → α × String) (l : List β) (hl : l ≠ []) :
    ∃ l1 x l2, l = l1 ++ x :: l2 ∧
      l.foldl (fun acc p => maxStep acc (f p)) none = some (f x) ∧
      (∀ y ∈ l1, (f y).1 < (f x).1) ∧ (∀ y ∈ l, (f y).1 ≤ (f x).1) := by
  match l with
  | [] => exact absurd rfl hl
  | a :: t =>
    have hstep : (a :: t).foldl (fun acc p => maxStep acc (f p)) none
        = t.foldl (fun acc p => maxStep acc (f p)) (some (f a)) := by
      simp [maxStep]
    obtain ⟨r, hr, hcase⟩ := maxStep_foldl_aux f t (f a)
    rcases hcase with ⟨hrb, hall⟩ | ⟨t1, x, t2, ht, hrx, hlt, h1, h2⟩
    · refine ⟨[], a, t, rfl, ?_, by simp, ?_⟩
      · rw [hstep, hr, hrb]
      · intro z hz
        rcases List.mem_cons.mp hz with hz | hz
        · rw [hz]
        · exact hall z hz
    · refine ⟨a :: t1, x, t2, by rw [ht]; simp, ?_, ?_, ?_⟩
      · rw [hstep, hr, hrx]
      · intro z hz
        rcases List.mem_cons.mp hz with hz | hz
        · rw [hz]; exact hlt
        · exact h1 z hz
      · intro z hz
        rcases List.mem_cons.mp hz with hz | hz
        · rw [hz]; exact le_of_lt hlt
        · rw [ht] at hz
          rcases List.mem_append.mp hz with hz | hz
          · exact le_of_lt (h1 z hz)
          · rcases List.mem_cons.mp hz with hz | hz
            · rw [hz]
            · exact h2 z hz

/-- Whatever the `maxStep` loop selects comes from the list. -/
theorem maxStep_foldl_mem (f : β → α × String) (l : List β) (r : α × String)
    (h : l.foldl (fun acc p => maxStep acc (f p)) none = some r) :
    ∃ p ∈ l, r = f p := by
  match l with
  | [] => exact absurd h (by simp)
  | a :: t =>
    obtain ⟨l1, x, l2, _, heq, _, _⟩ := maxStep_foldl_spec f (a :: t) (by simp)
    rw [heq] at h
    exact ⟨x, by simp [‹a :: t = l1 ++ x :: l2›], (Option.some_injective _ h).symm⟩

end SelectionLemmas

section SelectionLemmasMin

variable {α β : Type} [LinearOrder α]

/-- Dual of `maxStep_foldl_aux` for the `distance < minDistance` loops. -/
theorem minStep_foldl_aux (f : β → α × String) :
    ∀ (t : List β) (b : α × String),
      ∃ r, t.foldl (fun acc p => minStep acc (f p)) (some b) = some r ∧
        ((r = b ∧ ∀ y ∈ t, b.1 ≤ (f y).1) ∨
          (∃ t1 x t2, t = t1 ++ x :: t2 ∧ r = f x ∧ (f x).1 < b.1 ∧
            (∀ y ∈ t1, (f x).1 < (f y).1) ∧ (∀ y ∈ t2, (f x).1 ≤ (f y).1))) := by
  intro t
  induction t with
  | nil => exact fun b => ⟨b, rfl, Or.inl ⟨rfl, by simp⟩⟩
  | cons y t ih =>
    intro b
    by_cases h : (f y).1 < b.1
    · have hstep : (y :: t).foldl (fun acc p => minStep acc (f p)) (some b)
          = t.foldl (fun acc p => minStep acc (f p)) (some (f y)) := by
        simp [minStep, h]
      obtain ⟨r, hr, hcase⟩ := ih (f y)
      refine ⟨r, by rw [hstep]; exact hr, Or.inr ?_⟩
      rcases hcase with ⟨hrb, hall⟩ | ⟨t1, x, t2, ht, hrx, hlt, h1, h2⟩
      · exact ⟨[], y, t, rfl, hrb, h, by simp, hall⟩
      · refine ⟨y :: t1, x, t2, by rw [ht]; simp, hrx, lt_trans hlt h, ?_, h2⟩
        intro z hz
        rcases List.mem_cons.mp hz with hz | hz
        · rw [hz]; exact hlt
        · exact h1 z hz
    · have hstep : (y :: t).foldl (fun acc p => minStep acc (f p)) (some b)
          = t.foldl (fun acc p => minStep acc (f p)) (some b) := by
        simp [minStep, h]
      obtain ⟨r, hr, hcase⟩ := ih b
      refine ⟨r, by rw [hstep]; exact hr, ?_⟩
      rcases hcase with ⟨hrb, hall⟩ | ⟨t1, x, t2, ht, hrx, hlt, h1, h2⟩
      · refine Or.inl ⟨hrb, ?_⟩
        intro z hz
        rcases List.mem_cons.mp hz with hz | hz
        · rw [hz]; exact not_lt.mp h
        · exact hall z hz
      · refine Or.inr ⟨y :: t1, x, t2, by rw [ht]; simp, hrx, hlt, ?_, h2⟩
        intro z hz
        rcases List.mem_cons.mp hz with hz | hz
        · rw [hz]; exact lt_of_lt_of_le hlt (not_lt.mp h)
        · exact h1 z hz

/-- The `distance < minDistance` loop started from `null` selects the first
element attaining the minimum key. -/
theorem minStep_foldl_spec (f : β → α × String) (l : List β) (hl : l ≠ []) :
    ∃ l1 x l2, l = l1 ++ x :: l2 ∧
      l.foldl (fun acc p => minStep acc (f p)) none = some (f x) ∧
      (∀ y ∈ l1, (f x).1 < (f y).1) ∧ (∀ y ∈ l, (f x).1 ≤ (f y).1) := by
  match l with
  | [] => exact absurd rfl hl
  | a :: t =>
    have hstep : (a :: t).foldl (fun acc p => minStep acc (f p)) none
        = t.foldl (fun acc p => minStep acc (f p)) (some (f a)) := by
      simp [minStep]
    obtain ⟨r, hr, hcase⟩ := minStep_foldl_aux f t (f a)
    rcases hcase with ⟨hrb, hall⟩ | ⟨t1, x, t2, ht, hrx, hlt, h1, h2⟩
    · refine ⟨[], a, t, rfl, ?_, by simp, ?_⟩
      · rw [hstep, hr, hrb]
      · intro z hz
        rcases List.mem_cons.mp hz with hz | hz
        · rw [hz]
        · exact hall z hz
    · refine ⟨a :: t1, x, t2, by rw [ht]; simp, ?_, ?_, ?_⟩
      · rw [hstep, hr, hrx]
      · intro z hz
        rcases List.mem_cons.mp hz with hz | hz
        · rw [hz]; exact hlt
        · exact h1 z hz
      · intro z hz
        rcases List.mem_cons.mp hz with hz | hz
        · rw [hz]; exact le_of_lt hlt
        · rw [ht] at hz
          rcases List.mem_append.mp hz with hz | hz
          · exact le_of_lt (h1 z hz)
          · rcases List.mem_cons.mp hz with hz | hz
            · rw [hz]
            · exact h2 z hz

end SelectionLemmasMin

section ListBoundLemmas

/-- A `min`-fold is a lower bound of its seed and of every element. -/
theorem foldl_min_le {xs : List ℚ} {x : ℚ} :
    xs.foldl min x ≤ x ∧ ∀ v ∈ xs, xs.foldl min x ≤ v := by
  induction xs generalizing x with
  | nil => exact ⟨le_refl x, by simp⟩
  | cons y ys ih =>
    have h := @ih (min x y)
    refine ⟨le_trans h.1 (min_le_left x y), ?_⟩
    intro v hv
    rcases List.mem_cons.mp hv with hv | hv
    · rw [hv]; exact le_trans h.1 (min_le_right x y)
    · exact h.2 v hv

/-- A `max`-fold is an upper bound of its seed and of every element. -/
theorem le_foldl_max {xs : List ℚ} {x : ℚ} :
    x ≤ xs.foldl max x ∧ ∀ v ∈ xs, v ≤ xs.foldl max x := by
  induction xs generalizing x with
  | nil => exact ⟨le_refl x, by simp⟩
  | cons y ys ih =>
    have h := @ih (max x y)
    refine ⟨le_trans (le_max_left x y) h.1, ?_⟩
    intro v hv
    rcases List.mem_cons.mp hv with hv | hv
    · rw [hv]; exact le_trans (le_max_right x y) h.1
    · exact h.2 v hv

/-- `Math.min(...l)` bounds every element from below. -/
theorem jsMinQ_le {l : List ℚ} {v : ℚ} (hv : v ∈ l) : jsMinQ l ≤ v := by
  match l with
  | x :: xs =>
    rcases List.mem_cons.mp hv with h | h
    · rw [h]; exact foldl_min_le.1
    · exact foldl_min_le.2 v h

/-- `Math.max(...l)` bounds every element from above. -/
theorem le_jsMaxQ {l : List ℚ} {v : ℚ} (hv : v ∈ l) : v ≤ jsMaxQ l := by
  match l with
  | x :: xs =>
    rcases List.mem_cons.mp hv with h | h
    · rw [h]; exact le_foldl_max.1
    · exact le_foldl_max.2 v h

/-- Sums of squares are nonnegative. -/
theorem sumsq_nonneg (a : List ℚ) : 0 ≤ (a.map (fun x => x * x)).sum := by
  apply List.sum_nonneg
  intro x hx
  obtain ⟨y, _, hy⟩ := List.mem_map.mp hx
  rw [← hy]; exact mul_self_nonneg y

/-- Cauchy-Schwarz for the zip-product of two rational lists. -/
theorem list_cauchy_schwarz (a b : List ℚ) :
    ((List.zipWith (· * ·) a b).sum) ^ 2 ≤
      (a.map (fun x => x * x)).sum * (b.map (fun x => x * x)).sum := by
  induction a generalizing b with
  | nil =>
    simp only [List.zipWith_nil_left, List.sum_nil, ne_eq, OfNat.ofNat_ne_zero,
      not_false_eq_true, zero_pow]
    exact mul_nonneg (sumsq_nonneg []) (sumsq_nonneg b)
  | cons x xs ih =>
    cases b with
    | nil =>
      simp only [List.zipWith_nil_right, List.sum_nil, ne_eq, OfNat.ofNat_ne_zero,
        not_false_eq_true, zero_pow]
      exact mul_nonneg (sumsq_nonneg (x :: xs)) (sumsq_nonneg [])
    | cons y ys =>
      have hA := sumsq_nonneg xs
      have hB := sumsq_nonneg ys
      have hD := ih ys
      simp only [List.zipWith_cons_cons, List.map_cons, List.sum_cons]
      set A := (xs.map (fun x => x * x)).sum with hAdef
      set B := (ys.map (fun x => x * x)).sum with hBdef
      set D := (List.zipWith (· * ·) xs ys).sum with hDdef
      have key : A * ((x * x + A) * (y * y + B) - (x * y + D) ^ 2)
          = (A * y - x * D) ^ 2 + (A * B - D ^ 2) * (x * x + A) := by ring
      rcases hA.eq_or_lt with hA0 | hApos
      · have hD0 : D ^ 2 ≤ 0 := by rw [← hA0] at hD; simpa using hD
        have hDz : D = 0 := by
          have := sq_nonneg D
          have : D ^ 2 = 0 := le_antisymm hD0 this
          exact pow_eq_zero_iff (two_ne_zero) |>.mp this
        rw [hDz, ← hA0]
        nlinarith [mul_nonneg (mul_self_nonneg x) hB]
      · have h1 : 0 ≤ A * ((x * x + A) * (y * y + B) - (x * y + D) ^ 2) := by
          rw [key]
          exact add_nonneg (sq_nonneg _)
            (mul_nonneg (sub_nonneg.mpr hD) (add_nonneg (mul_self_nonneg x) hA))
        have h2 : 0 ≤ (x * x + A) * (y * y + B) - (x * y + D) ^ 2 :=
          (mul_nonneg_iff_of_pos_left hApos).mp h1
        linarith

end ListBoundLemmas

section CosineLemmas

/-- The cosine similarity the anomaly detector computes never exceeds 1. -/
theorem calculateCosineSimilarity_le_one (a b : List ℚ) :
    AnomalyDetector.calculateCosineSimilarity a b ≤ 1 := by
  unfold AnomalyDetector.calculateCosineSimilarity
  by_cases hlen : a.length ≠ b.length
  · simp [hlen]
  · simp only [hlen, if_false]
    set dotProduct : ℚ := (List.zipWith (· * ·) a b).sum with hdot
    set magnitudeA : ℚ := (a.map (fun x => x * x)).sum with hmagA
    set magnitudeB : ℚ := (b.map (fun x => x * x)).sum with hmagB
    by_cases hz : magnitudeA = 0 ∨ magnitudeB = 0
    · simp [hz]
    · simp only [hz, if_false]
      push_neg at hz
      have hA : (0 : ℚ) ≤ magnitudeA := sumsq_nonneg a
      have hB : (0 : ℚ) ≤ magnitudeB := sumsq_nonneg b
      have hApos : (0 : ℝ) < (magnitudeA : ℝ) := by
        have : (0 : ℚ) < magnitudeA := lt_of_le_of_ne hA (Ne.symm hz.1)
        exact_mod_cast this
      have hBpos : (0 : ℝ) < (magnitudeB : ℝ) := by
        have : (0 : ℚ) < magnitudeB := lt_of_le_of_ne hB (Ne.symm hz.2)
        exact_mod_cast this
      have hdenpos : (0 : ℝ) < Real.sqrt (magnitudeA : ℝ) * Real.sqrt (magnitudeB : ℝ) :=
        mul_pos (Real.sqrt_pos.mpr hApos) (Real.sqrt_pos.mpr hBpos)
      rw [div_le_one hdenpos]
      have hcs : ((dotProduct : ℝ)) ^ 2 ≤ (magnitudeA : ℝ) * (magnitudeB : ℝ) := by
        have := list_cauchy_schwarz a b
        rw [hdot, hmagA, hmagB]
        exact_mod_cast this
      calc (dotProduct : ℝ) ≤ Real.sqrt ((magnitudeA : ℝ) * (magnitudeB : ℝ)) :=
            Real.le_sqrt_of_sq_le hcs
        _ = Real.sqrt (magnitudeA : ℝ) * Real.sqrt (magnitudeB : ℝ) :=
            Real.sqrt_mul (le_of_lt hApos) _

end CosineLemmas

section JsMinRLemmas

/-- `Math.min` over a nonempty list of reals, each at most 1, is a real
number at most 1. -/
theorem jsMinR_nonempty_le_one {l : List ℝ} (hl : l ≠ []) (h : ∀ x ∈ l, x ≤ 1) :
    ∃ r : ℝ, AnomalyDetector.jsMinR l = (r : EReal) ∧ r ≤ 1 := by
  induction l with
  | nil => exact absurd rfl hl
  | cons x xs ih =>
    cases xs with
    | nil =>
      refine ⟨x, ?_, h x (by simp)⟩
      simp [AnomalyDetector.jsMinR, min_eq_left (le_top : (x : EReal) ≤ ⊤)]
    | cons y ys =>
      obtain ⟨r, hr, hr1⟩ := ih (by simp) (fun z hz => h z (List.mem_cons_of_mem x hz))
      have hstep : AnomalyDetector.jsMinR (x :: y :: ys)
          = min (x : EReal) (AnomalyDetector.jsMinR (y :: ys)) := rfl
      rcases le_total x r with hxr | hrx
      · refine ⟨x, ?_, h x (by simp)⟩
        rw [hstep, hr, min_eq_left (EReal.coe_le_coe_iff.mpr hxr)]
      · refine ⟨r, ?_, hr1⟩
        rw [hstep, hr, min_eq_right (EReal.coe_le_coe_iff.mpr hrx)]

end JsMinRLemmas

section ShapeLemmas

/-- `standardizeRow` preserves the row length. -/
theorem standardizeRow_length (means : List ℚ) (stdDevs : List ℝ) :
    ∀ (i : ℕ) (row : List ℚ),
      (DataProcessor.standardizeRow means stdDevs i row).length = row.length := by
  intro i row
  induction row generalizing i with
  | nil => rfl
  | cons v vs ih => simp [DataProcessor.standardizeRow, ih]

end ShapeLemmas

section EuclideanLemmas

/-- The padded row sum of squared differences vanishes on equal rows. -/
theorem rowSumSq_self (a : List ℚ) : PatternAnalyzer.rowSumSq a a = 0 := by
  induction a with
  | nil => simp [PatternAnalyzer.rowSumSq]
  | cons x xs ih => simp [PatternAnalyzer.rowSumSq, ih]

/-- The padded matrix sum of squared differences vanishes on equal matrices. -/
theorem matSumSq_self (m : Matrix2) : PatternAnalyzer.matSumSq m m = 0 := by
  induction m with
  | nil => simp [PatternAnalyzer.matSumSq]
  | cons r rs ih => simp [PatternAnalyzer.matSumSq, rowSumSq_self, ih]

/-- The padded row sum of squared differences is symmetric. -/
theorem rowSumSq_comm (a b : List ℚ) :
    PatternAnalyzer.rowSumSq a b = PatternAnalyzer.rowSumSq b a := by
  induction a generalizing b with
  | nil =>
    induction b with
    | nil => rfl
    | cons y ys ihb => simp [PatternAnalyzer.rowSumSq, ihb]
  | cons x xs ih =>
    cases b with
    | nil =>
      show PatternAnalyzer.rowSumSq (x :: xs) [] = PatternAnalyzer.rowSumSq [] (x :: xs)
      simp [PatternAnalyzer.rowSumSq, ih []]
    | cons y ys => simp [PatternAnalyzer.rowSumSq, ih ys]; ring

/-- The padded matrix sum of squared differences is symmetric. -/
theorem matSumSq_comm (m n : Matrix2) :
    PatternAnalyzer.matSumSq m n = PatternAnalyzer.matSumSq n m := by
  induction m generalizing n with
  | nil =>
    induction n with
    | nil => rfl
    | cons s ss ihn => simp [PatternAnalyzer.matSumSq, rowSumSq_comm, ihn]
  | cons r rs ih =>
    cases n with
    | nil =>
      show PatternAnalyzer.matSumSq (r :: rs) [] = PatternAnalyzer.matSumSq [] (r :: rs)
      simp [PatternAnalyzer.matSumSq, rowSumSq_comm, ih []]
    | cons s ss => simp [PatternAnalyzer.matSumSq, rowSumSq_comm, ih ss]

/-- Padded row sums of squared differences are nonnegative. -/
theorem rowSumSq_nonneg (a b : List ℚ) : 0 ≤ PatternAnalyzer.rowSumSq a b := by
  induction a generalizing b with
  | nil =>
    induction b with
    | nil => simp [PatternAnalyzer.rowSumSq]
    | cons y ys ihb => simp only [PatternAnalyzer.rowSumSq]; positivity
  | cons x xs ih =>
    cases b with
    | nil =>
      show (0:ℚ) ≤ PatternAnalyzer.rowSumSq (x :: xs) []
      have := ih []
      simp only [PatternAnalyzer.rowSumSq]
      nlinarith [sq_nonneg (x - 0), ih ([] : List ℚ)]
    | cons y ys =>
      simp only [PatternAnalyzer.rowSumSq]
      nlinarith [sq_nonneg (x - y), ih ys]

/-- Padded matrix sums of squared differences are nonnegative. -/
theorem matSumSq_nonneg (m n : Matrix2) : 0 ≤ PatternAnalyzer.matSumSq m n := by
  induction m generalizing n with
  | nil =>
    induction n with
    | nil => simp [PatternAnalyzer.matSumSq]
    | cons s ss ihn =>
      simp only [PatternAnalyzer.matSumSq]
      have := rowSumSq_nonneg [] s
      linarith
  | cons r rs ih =>
    cases n with
    | nil =>
      show (0:ℚ) ≤ PatternAnalyzer.matSumSq (r :: rs) []
      simp only [PatternAnalyzer.matSumSq]
      have h1 := rowSumSq_nonneg r []
      have h2 := ih ([] : Matrix2)
      linarith
    | cons s ss =>
      simp only [PatternAnalyzer.matSumSq]
      have h1 := rowSumSq_nonneg r s
      have h2 := ih ss
      linarith

end EuclideanLemmas

/-- C1: with an empty pattern store, `classify` fails with the NotTrained
error in both the `BrainSignalClassifier` and the `NeuralSignalClassifier`
variant, and the strict `train` rejects an empty pattern sequence with the
EmptyInput error (returning no new state, so the store is left as it was —
in particular empty). -/
theorem C1_classify_untrained_and_train_empty :
    (∀ (st : BrainSignalClassifier.State) (m : Matrix2), st.trainingData = [] →
      BrainSignalClassifier.classify st m = .error .notTrained) ∧
    (∀ (st : NeuralSignalClassifier.State) (m : Matrix2), st.patterns = [] →
      NeuralSignalClassifier.classify st m = .error .notTrained) ∧
    (∀ st : BrainSignalClassifier.State,
      BrainSignalClassifier.train st [] = .error .emptyInput) := by
  refine ⟨?_, ?_, ?_⟩
  · intro st m h
    simp [BrainSignalClassifier.classify, h]
  · intro st m h
    simp [NeuralSignalClassifier.classify, h]
  · intro st
    simp [BrainSignalClassifier.train]

/-- Witness for C1 at concrete states and inputs. -/
theorem C1_classify_untrained_and_train_empty_witness :
    ({ trainingData := [], patternDimensions := 0 } :
        BrainSignalClassifier.State).trainingData = [] ∧
    BrainSignalClassifier.classify { trainingData := [], patternDimensions := 0 } [[1]]
      = .error .notTrained ∧
    NeuralSignalClassifier.classify { patterns := [] } [[1]] = .error .notTrained ∧
    BrainSignalClassifier.train { trainingData := [], patternDimensions := 0 } []
      = .error .emptyInput :=
  ⟨rfl,
    C1_classify_untrained_and_train_empty.1 _ [[1]] rfl,
    C1_classify_untrained_and_train_empty.2.1 _ [[1]] rfl,
    C1_classify_untrained_and_train_empty.2.2 _⟩

/-- C2: `NeuralSignalClassifier.train` replaces the stored pattern sequence
wholesale: afterwards the store holds exactly the trained sequence,
whatever it held before. -/
theorem C2_train_replaces_wholesale (st : NeuralSignalClassifier.State)
    (P : List NeuralPattern) (_hP : P ≠ []) :
    (NeuralSignalClassifier.train st P).patterns = P :=
  rfl

/-- Witness for C2 at a concrete prior store and pattern list. -/
theorem C2_train_replaces_wholesale_witness :
    ([⟨[[1]], "a"⟩] : List NeuralPattern) ≠ [] ∧
    (NeuralSignalClassifier.train { patterns := [⟨[[2]], "b"⟩] }
        [⟨[[1]], "a"⟩]).patterns = [⟨[[1]], "a"⟩] :=
  ⟨by decide, C2_train_replaces_wholesale _ _ (by decide)⟩

/-- C3 counterexample: on the empty matrix, feature extraction
(`NeuralSignalClassifier.analyzePattern`) does not succeed with a zeroed
FeatureVector — it fails with the EmptyInput error. -/
theorem C3_counterexample_empty_throws :
    NeuralSignalClassifier.analyzePattern ([] : Matrix2) = .error .emptyInput := by
  simp [NeuralSignalClassifier.analyzePattern]

/-- C3 (amended): on the empty matrix, `analyzePattern` fails with
EmptyInput, and `DataProcessor.calculateFeatures` succeeds without dividing
by zero but returns the empty record (no `count` field, no zeroed scalar
fields). -/
theorem C3_empty_matrix_features :
    NeuralSignalClassifier.analyzePattern ([] : Matrix2) = .error .emptyInput ∧
    DataProcessor.calculateFeatures ([] : Matrix2) = none := by
  exact ⟨by simp [NeuralSignalClassifier.analyzePattern],
    by simp [DataProcessor.calculateFeatures]⟩

/-- C7: every value `DataProcessor.normalize` produces for a nonempty
rectangular matrix lies in [0, 1] (when the global range is 0 the divisor
is 1), and the empty matrix maps to the empty matrix. -/
theorem C7_normalize_unit_interval (m : Matrix2) (hm : m ≠ [])
    (_hrect : rectangular m) :
    (∀ row ∈ DataProcessor.normalize m, ∀ v ∈ row, 0 ≤ v ∧ v ≤ 1) ∧
    DataProcessor.normalize ([] : Matrix2) = [] := by
  constructor
  · intro row' hrow' v' hv'
    rw [DataProcessor.normalize, if_neg hm] at hrow'
    obtain ⟨row, hrow, hrow_eq⟩ := List.mem_map.mp hrow'
    rw [← hrow_eq] at hv'
    obtain ⟨v, hv, hv_eq⟩ := List.mem_map.mp hv'
    rw [← hv_eq]
    have hvmem : v ∈ m.flatten := List.mem_flatten.mpr ⟨row, hrow, hv⟩
    have h1 : jsMinQ m.flatten ≤ v := jsMinQ_le hvmem
    have h2 : v ≤ jsMaxQ m.flatten := le_jsMaxQ hvmem
    by_cases h0 : jsMaxQ m.flatten - jsMinQ m.flatten = 0
    · rw [if_pos h0, div_one]
      constructor
      · linarith
      · linarith
    · rw [if_neg h0]
      have hpos : 0 < jsMaxQ m.flatten - jsMinQ m.flatten :=
        lt_of_le_of_ne (by linarith) (Ne.symm h0)
      exact ⟨div_nonneg (by linarith) (le_of_lt hpos),
        (div_le_one hpos).mpr (by linarith)⟩
  · simp [DataProcessor.normalize]

/-- Witness for C7 at a concrete matrix with range 2. -/
theorem C7_normalize_unit_interval_witness :
    ([[0, 2], [1, 1]] : Matrix2) ≠ [] ∧ rectangular [[0, 2], [1, 1]] ∧
    ((∀ row ∈ DataProcessor.normalize [[0, 2], [1, 1]], ∀ v ∈ row, 0 ≤ v ∧ v ≤ 1) ∧
      DataProcessor.normalize ([] : Matrix2) = []) :=
  ⟨by decide, by decide,
    C7_normalize_unit_interval [[0, 2], [1, 1]] (by decide) (by decide)⟩

/-- C8: the zero-padding Euclidean distance satisfies
`distance(A, A) = 0` and `distance(A, B) = distance(B, A)`, also for ragged
pairs of different shapes. -/
theorem C8_distance_zero_and_symmetric :
    (∀ A : Matrix2, PatternAnalyzer.calculateEuclideanDistance A A = 0) ∧
    (∀ A B : Matrix2, PatternAnalyzer.calculateEuclideanDistance A B =
      PatternAnalyzer.calculateEuclideanDistance B A) := by
  constructor
  · intro A
    unfold PatternAnalyzer.calculateEuclideanDistance
    rw [matSumSq_self]
    simp
  · intro A B
    unfold PatternAnalyzer.calculateEuclideanDistance
    rw [matSumSq_comm]

/-- C10: `normalize` and `standardize` preserve the shape of the input:
same number of rows, and each output row has the length of the
corresponding input row. -/
theorem C10_shape_preserved (m : Matrix2) :
    (DataProcessor.normalize m).map List.length = m.map List.length ∧
    (DataProcessor.standardize m).map List.length = m.map List.length := by
  constructor
  · by_cases hm : m = []
    · simp [hm, DataProcessor.normalize]
    · rw [DataProcessor.normalize, if_neg hm]
      simp [List.map_map, Function.comp_def]
  · by_cases hm : m = []
    · simp [hm, DataProcessor.standardize]
    · rw [DataProcessor.standardize, if_neg hm]
      simp [List.map_map, Function.comp_def, standardizeRow_length]

section ConfidenceLemmas

/-- `1 / (1 + |a - b|)` always lies in [0, 1]. -/
theorem similarity_mem_unit (a b : ℚ) :
    0 ≤ BrainSignalClassifier.similarity a b ∧
      BrainSignalClassifier.similarity a b ≤ 1 := by
  unfold BrainSignalClassifier.similarity
  have h : (0 : ℚ) < 1 + |a - b| := by positivity
  exact ⟨le_of_lt (div_pos one_pos h),
    (div_le_one h).mpr (le_add_of_nonneg_right (abs_nonneg _))⟩

end ConfidenceLemmas

/-- C5 (amended): the confidence of a successful classification lies in
[0, 1] for the `1 / (1 + |Δmean|)` classifier variant and for every
`PatternAnalyzer` match (`max(0, 1 - d/10)`), while the
`1 - |Δmean|` variant only guarantees confidence ≤ 1 — it can go negative. -/
theorem C5_confidence_bounds :
    (∀ (st : BrainSignalClassifier.State) (m : Matrix2)
        (r : BrainSignalClassifier.ClassificationResult),
      BrainSignalClassifier.classify st m = .ok (some r) →
        0 ≤ r.confidence ∧ r.confidence ≤ 1) ∧
    (∀ (st : BrainSignalClassifier2.State) (m : Matrix2)
        (r : BrainSignalClassifier.ClassificationResult),
      BrainSignalClassifier2.classify st m = .ok r → r.confidence ≤ 1) ∧
    (∀ (st : PatternAnalyzer.State) (m : Matrix2) (r : PatternAnalyzer.MatchResult),
      r ∈ PatternAnalyzer.findPatternMatches st m →
        0 ≤ r.confidence ∧ r.confidence ≤ 1) := by
  refine ⟨?_, ?_, ?_⟩
  · intro st m r h
    unfold BrainSignalClassifier.classify at h
    split_ifs at h
    simp only [Except.ok.injEq] at h
    obtain ⟨x, hx, hr⟩ := Option.map_eq_some'.mp h
    obtain ⟨p, _, hxp⟩ := maxStep_foldl_mem _ _ _ hx
    have : r.confidence = (BrainSignalClassifier.similarity (matMean m)
        (matMean p.pattern)) := by rw [← hr, hxp]
    rw [this]
    exact similarity_mem_unit _ _
  · intro st m r h
    unfold BrainSignalClassifier2.classify at h
    split_ifs at h
    rcases hfold : st.trainingData.foldl
        (fun acc tp => maxStep acc (1 - |matMean m - matMean tp.pattern|, tp.label))
        none with _ | x
    · simp only [hfold, Except.ok.injEq] at h
      rw [← h]
      norm_num
    · simp only [hfold, Except.ok.injEq] at h
      obtain ⟨p, _, hxp⟩ := maxStep_foldl_mem _ _ _ hfold
      have : r.confidence = 1 - |matMean m - matMean p.pattern| := by
        rw [← h, hxp]
      rw [this]
      exact sub_le_self 1 (abs_nonneg _)
  · intro st m r hr
    unfold PatternAnalyzer.findPatternMatches at hr
    split_ifs at hr with hp
    · simp at hr
    · have hmem := (List.mergeSort_perm _ _).mem_iff.mp hr
      obtain ⟨tp, _, htp⟩ := List.mem_map.mp hmem
      have hc : r.confidence =
          max 0 (1 - PatternAnalyzer.calculateEuclideanDistance m tp.pattern / 10) := by
        rw [← htp]
      rw [hc]
      refine ⟨le_max_left 0 _, max_le zero_le_one ?_⟩
      have hd : 0 ≤ PatternAnalyzer.calculateEuclideanDistance m tp.pattern :=
        Real.sqrt_nonneg _
      have : 0 ≤ PatternAnalyzer.calculateEuclideanDistance m tp.pattern / 10 := by
        positivity
      linarith

/-- C5 counterexample: after successfully training the `1 - |Δmean|`
variant on one pattern with mean 5, classifying a matrix with mean 0
returns confidence −4, outside [0, 1]. -/
theorem C5_counterexample_negative_confidence :
    BrainSignalClassifier2.train { trainingData := [], patternDimensions := 0 }
        [⟨[[5]], "a"⟩] = .ok { trainingData := [⟨[[5]], "a"⟩], patternDimensions := 1 } ∧
    BrainSignalClassifier2.classify
        { trainingData := [⟨[[5]], "a"⟩], patternDimensions := 1 } [[0]]
      = .ok ⟨"a", -4⟩ ∧
    ¬ (0 ≤ (-4 : ℚ)) := by
  refine ⟨by decide, ?_, by norm_num⟩
  norm_num [BrainSignalClassifier2.classify, matMean, maxStep]

/-- Witness for C5 at concrete classifiers and queries. -/
theorem C5_confidence_bounds_witness :
    (0 ≤ (1 : ℚ) ∧ (1 : ℚ) ≤ 1) ∧ ((1 : ℚ) ≤ 1) := by
  constructor
  · have h : BrainSignalClassifier.classify
        { trainingData := [⟨[[1]], "a"⟩], patternDimensions := 1 } [[1]]
        = .ok (some ⟨"a", 1⟩) := by
      norm_num [BrainSignalClassifier.classify, BrainSignalClassifier.similarity,
        matMean, maxStep, rectangular]
    exact C5_confidence_bounds.1 _ _ _ h
  · have h : BrainSignalClassifier2.classify
        { trainingData := [⟨[[5]], "a"⟩], patternDimensions := 1 } [[5]]
        = .ok ⟨"a", 1⟩ := by
      norm_num [BrainSignalClassifier2.classify, matMean, maxStep]
    exact C5_confidence_bounds.2.1 _ _ _ h

section DetectAnomaliesUnfold

/-- Unfolding of `AnomalyDetector.detectAnomalies` on nonempty data. -/
theorem detectAnomalies_nonempty (st : AnomalyDetector.State) (data : Matrix2)
    (h : data ≠ []) :
    AnomalyDetector.detectAnomalies st data =
      { anomalyScore := 1 - AnomalyDetector.jsMinR
          (AnomalyDetector.compareWithReferences st
            (AnomalyDetector.calculateAveragePattern data))
        isAnomalous := decide (((3/10 : ℝ) : EReal) < 1 - AnomalyDetector.jsMinR
          (AnomalyDetector.compareWithReferences st
            (AnomalyDetector.calculateAveragePattern data)))
        confidence := min 1 ((1 - AnomalyDetector.jsMinR
          (AnomalyDetector.compareWithReferences st
            (AnomalyDetector.calculateAveragePattern data))) * 2) } := by
  rw [AnomalyDetector.detectAnomalies, if_neg h]

end DetectAnomaliesUnfold

/-- C4 (amended): in the `AnomalyResult`-returning detector, `isAnomalous`
compares the score to the fixed cutoff 0.3, so `updateThreshold` never
changes a `detectAnomalies` outcome; in the Boolean detector variant,
`detectAnomalies(data, type)` is true exactly when the average deviation
(`getAnomalyScore`) exceeds the threshold registered for `type`, with
defaults 0.7 for schizophrenia, 0.65 for bipolar, 0.5 for control, and 0.5
for any unknown label. -/
theorem C4_threshold_semantics :
    (∀ (st : AnomalyDetector.State) (c : String) (t : ℚ) (data : Matrix2),
      AnomalyDetector.detectAnomalies (AnomalyDetector.updateThreshold st c t) data =
        AnomalyDetector.detectAnomalies st data) ∧
    (∀ (st : AnomalyDetector2.State) (data : Matrix2) (pt : String),
      AnomalyDetector2.detectAnomalies st data pt =
        (AnomalyDetector2.getAnomalyScore st data pt).map
          (fun s => decide (((AnomalyDetector2.thresholdFor st pt : ℚ) : ℝ) < s))) ∧
    (AnomalyDetector2.thresholdFor AnomalyDetector2.mkDetector "schizophrenia" = 7/10 ∧
      AnomalyDetector2.thresholdFor AnomalyDetector2.mkDetector "bipolar" = 13/20 ∧
      AnomalyDetector2.thresholdFor AnomalyDetector2.mkDetector "control" = 1/2) ∧
    (∀ s : String, s ≠ "schizophrenia" → s ≠ "bipolar" → s ≠ "control" →
      AnomalyDetector2.thresholdFor AnomalyDetector2.mkDetector s = 1/2) := by
  refine ⟨?_, ?_, ⟨?_, ?_, ?_⟩, ?_⟩
  · intro st c t data
    rfl
  · intro st data pt
    rcases hx : AnomalyDetector2.calculateDeviations st data pt with e | devs <;>
      simp [AnomalyDetector2.detectAnomalies, AnomalyDetector2.getAnomalyScore, hx,
        Except.map]
  · have h : jsMapGet AnomalyDetector2.mkDetector.thresholds "schizophrenia"
        = some (7/10) := by
      simp [jsMapGet, AnomalyDetector2.mkDetector, List.find?]
    simp only [AnomalyDetector2.thresholdFor, h]
    norm_num
  · have h : jsMapGet AnomalyDetector2.mkDetector.thresholds "bipolar"
        = some (13/20) := by
      simp [jsMapGet, AnomalyDetector2.mkDetector, List.find?]
    simp only [AnomalyDetector2.thresholdFor, h]
    norm_num
  · have h : jsMapGet AnomalyDetector2.mkDetector.thresholds "control"
        = some (1/2) := by
      simp [jsMapGet, AnomalyDetector2.mkDetector, List.find?]
    simp only [AnomalyDetector2.thresholdFor, h]
    norm_num
  · intro s h1 h2 h3
    simp [AnomalyDetector2.thresholdFor, jsMapGet, AnomalyDetector2.mkDetector,
      List.find?, Ne.symm h1, Ne.symm h2, Ne.symm h3]

/-- Witness for C4 at a concrete unknown label. -/
theorem C4_threshold_semantics_witness :
    AnomalyDetector2.thresholdFor AnomalyDetector2.mkDetector "neither" = 1/2 :=
  C4_threshold_semantics.2.2.2 "neither" (by decide) (by decide) (by decide)

/-- The detector state of the C4 counterexample: one reference pattern
`[[1]]` registered for "control", whose threshold has been raised to 10. -/
def counterexampleDetector : AnomalyDetector.State :=
  { thresholds := [("schizophrenia", 7/10), ("bipolar", 13/20), ("control", 10)]
    referencePatterns := [("control", [[1]])] }

/-- The counterexample state arises from the public API. -/
theorem counterexampleDetector_from_api :
    AnomalyDetector.updateThreshold
        (AnomalyDetector.addReferencePattern AnomalyDetector.mkDetector "control" [[1]])
        "control" 10 = counterexampleDetector := by
  simp [AnomalyDetector.updateThreshold, AnomalyDetector.addReferencePattern,
    AnomalyDetector.mkDetector, jsMapSet, jsMapGet, counterexampleDetector,
    List.find?]

/-- The similarity list of the counterexample evaluates to `[-1]`. -/
theorem counterexampleDetector_similarities :
    AnomalyDetector.compareWithReferences counterexampleDetector
      (AnomalyDetector.calculateAveragePattern [[-1]]) = [(-1 : ℝ)] := by
  have havg : AnomalyDetector.calculateAveragePattern [[-1]] = [-1] := by
    norm_num [AnomalyDetector.calculateAveragePattern, List.range_succ]
  have havgref : AnomalyDetector.calculateAveragePattern [[1]] = [1] := by
    norm_num [AnomalyDetector.calculateAveragePattern, List.range_succ]
  have hcos : AnomalyDetector.calculateCosineSimilarity [-1] [1] = -1 := by
    norm_num [AnomalyDetector.calculateCosineSimilarity, Real.sqrt_one]
  rw [havg]
  simp [AnomalyDetector.compareWithReferences, counterexampleDetector, havgref, hcos]

/-- The anomaly score of the counterexample is 2. -/
theorem counterexampleDetector_score :
    (AnomalyDetector.detectAnomalies counterexampleDetector [[-1]]).anomalyScore
      = ((2 : ℝ) : EReal) := by
  rw [detectAnomalies_nonempty _ _ (by simp)]
  simp only [counterexampleDetector_similarities]
  have hmin : AnomalyDetector.jsMinR [(-1 : ℝ)] = ((-1 : ℝ) : EReal) := by
    simp [AnomalyDetector.jsMinR]
  rw [hmin, ← EReal.coe_one, ← EReal.coe_sub]
  norm_num

/-- C4 counterexample: in the `counterexampleDetector` state, reached
through `addReferencePattern` and `updateThreshold`, `detectAnomalies`
reports `isAnomalous = true` on `[[-1]]` although the anomaly score (2)
does not exceed the threshold registered for the reference's label
"control" (10): the flag tracks the fixed cutoff 0.3, not the per-label
thresholds. -/
theorem C4_counterexample_fixed_cutoff :
    AnomalyDetector.updateThreshold
        (AnomalyDetector.addReferencePattern AnomalyDetector.mkDetector "control" [[1]])
        "control" 10 = counterexampleDetector ∧
    jsMapGet counterexampleDetector.thresholds "control" = some 10 ∧
    (AnomalyDetector.detectAnomalies counterexampleDetector [[-1]]).isAnomalous = true ∧
    ¬ ((((10 : ℚ) : ℝ) : EReal) <
        (AnomalyDetector.detectAnomalies counterexampleDetector [[-1]]).anomalyScore) := by
  refine ⟨counterexampleDetector_from_api, ?_, ?_, ?_⟩
  · simp [counterexampleDetector, jsMapGet, List.find?]
  · rw [detectAnomalies_nonempty _ _ (by simp)]
    simp only [counterexampleDetector_similarities]
    have hmin : AnomalyDetector.jsMinR [(-1 : ℝ)] = ((-1 : ℝ) : EReal) := by
      simp [AnomalyDetector.jsMinR]
    rw [hmin, ← EReal.coe_one, ← EReal.coe_sub]
    refine decide_eq_true ?_
    rw [EReal.coe_lt_coe_iff]
    norm_num
  · rw [counterexampleDetector_score, EReal.coe_lt_coe_iff]
    norm_num

section DeviationLemmas

/-- A successful row Euclidean distance is nonnegative. -/
theorem euclid_ok_nonneg {p1 p2 : List ℚ} {d : ℝ}
    (h : AnomalyDetector2.calculateEuclideanDistance p1 p2 = .ok d) : 0 ≤ d := by
  unfold AnomalyDetector2.calculateEuclideanDistance at h
  split_ifs at h
  simp only [Except.ok.injEq] at h
  rw [← h]
  exact Real.sqrt_nonneg _

/-- Every deviation a successful `deviationsLoop` produces is nonnegative. -/
theorem deviationsLoop_nonneg :
    ∀ (l : List (List ℚ × List ℚ)) (devs : List ℝ),
      AnomalyDetector2.deviationsLoop l = .ok devs → ∀ d ∈ devs, 0 ≤ d := by
  intro l
  induction l with
  | nil =>
    intro devs h d hd
    simp only [AnomalyDetector2.deviationsLoop, Except.ok.injEq] at h
    rw [← h] at hd
    simp at hd
  | cons p rest ih =>
    intro devs h d hd
    rw [AnomalyDetector2.deviationsLoop] at h
    rcases hfp : AnomalyDetector2.calculateEuclideanDistance p.1 p.2 with e | x
    · rw [hfp] at h
      simp at h
    · rw [hfp] at h
      rcases hrest : AnomalyDetector2.deviationsLoop rest with e | xs
      · rw [hrest] at h
        simp at h
      · rw [hrest] at h
        simp only [Except.ok.injEq] at h
        rw [← h] at hd
        rcases List.mem_cons.mp hd with hd | hd
        · rw [hd]
          exact euclid_ok_nonneg hfp
        · exact ih xs hrest d hd

/-- An average of nonnegative deviations is nonnegative. -/
theorem calculateAverage_nonneg {devs : List ℝ} (h : ∀ d ∈ devs, 0 ≤ d) :
    0 ≤ AnomalyDetector2.calculateAverage devs := by
  unfold AnomalyDetector2.calculateAverage
  split_ifs
  · exact le_refl 0
  · exact div_nonneg (List.sum_nonneg h) (Nat.cast_nonneg _)

/-- `1 - Math.min(...sims)` is nonnegative when the similarity list is
nonempty and bounded by 1. -/
theorem one_sub_jsMinR_nonneg {sims : List ℝ} (hne : sims ≠ [])
    (hle : ∀ x ∈ sims, x ≤ 1) : 0 ≤ 1 - AnomalyDetector.jsMinR sims := by
  obtain ⟨r, hr, hr1⟩ := jsMinR_nonempty_le_one hne hle
  rw [hr, ← EReal.coe_one, ← EReal.coe_sub]
  exact EReal.coe_nonneg.mpr (by linarith)

end DeviationLemmas

/-- C6 (amended): the Boolean detector's `getAnomalyScore` is nonnegative
whenever it succeeds; the `AnomalyResult` detector's `anomalyScore` is
nonnegative for rectangular inputs whenever at least one nonempty reference
pattern is registered — with no references, JS `Math.min()` of the empty
spread is `Infinity` and the score is `-Infinity`, which is negative. -/
theorem C6_score_nonneg :
    (∀ (st : AnomalyDetector2.State) (data : Matrix2) (pt : String) (s : ℝ),
      AnomalyDetector2.getAnomalyScore st data pt = .ok s → 0 ≤ s) ∧
    (∀ (st : AnomalyDetector.State) (data : Matrix2),
      rectangular data → (∀ e ∈ st.referencePatterns, rectangular e.2) →
      (∃ e ∈ st.referencePatterns, e.2 ≠ []) →
      0 ≤ (AnomalyDetector.detectAnomalies st data).anomalyScore) := by
  constructor
  · intro st data pt s h
    unfold AnomalyDetector2.getAnomalyScore at h
    rcases hdevs : AnomalyDetector2.calculateDeviations st data pt with e | devs
    · rw [hdevs] at h
      simp [Except.map] at h
    · rw [hdevs] at h
      simp only [Except.map, Except.ok.injEq] at h
      rw [← h]
      unfold AnomalyDetector2.calculateDeviations at hdevs
      exact calculateAverage_nonneg (deviationsLoop_nonneg _ _ hdevs)
  · intro st data _hrect _hrefs ⟨e, he, hne⟩
    by_cases hd : data = []
    · rw [AnomalyDetector.detectAnomalies, if_pos hd]
      exact EReal.coe_nonneg.mpr le_rfl
    · rw [detectAnomalies_nonempty st data hd]
      have hsims_ne : AnomalyDetector.compareWithReferences st
          (AnomalyDetector.calculateAveragePattern data) ≠ [] := by
        unfold AnomalyDetector.compareWithReferences
        apply List.ne_nil_of_mem
        exact List.mem_map_of_mem _
          (List.mem_filter.mpr ⟨he, decide_eq_true hne⟩)
      have hle : ∀ x ∈ AnomalyDetector.compareWithReferences st
          (AnomalyDetector.calculateAveragePattern data), x ≤ 1 := by
        intro x hx
        obtain ⟨e', _, he'⟩ := List.mem_map.mp hx
        rw [← he']
        exact calculateCosineSimilarity_le_one _ _
      exact one_sub_jsMinR_nonneg hsims_ne hle

/-- C6 counterexample: a freshly constructed detector has no reference
patterns, and `detectAnomalies` then reports a negative (−Infinity)
anomaly score. -/
theorem C6_counterexample_no_references :
    AnomalyDetector.mkDetector.referencePatterns = [] ∧
    (AnomalyDetector.detectAnomalies AnomalyDetector.mkDetector [[1]]).anomalyScore
      < 0 := by
  refine ⟨rfl, ?_⟩
  rw [detectAnomalies_nonempty _ _ (by simp)]
  show 1 - AnomalyDetector.jsMinR (AnomalyDetector.compareWithReferences
      AnomalyDetector.mkDetector (AnomalyDetector.calculateAveragePattern [[1]])) < 0
  have hsims : AnomalyDetector.compareWithReferences AnomalyDetector.mkDetector
      (AnomalyDetector.calculateAveragePattern [[1]]) = [] := by
    simp [AnomalyDetector.compareWithReferences, AnomalyDetector.mkDetector]
  rw [hsims]
  have htop : AnomalyDetector.jsMinR ([] : List ℝ) = ⊤ := rfl
  rw [htop, EReal.sub_top]
  exact EReal.zero_ne_bot.bot_lt

/-- Witness for C6 at concrete detectors and data. -/
theorem C6_score_nonneg_witness :
    (0 ≤ (0 : ℝ)) ∧
    0 ≤ (AnomalyDetector.detectAnomalies ⟨[], [("control", [[1]])]⟩ [[1]]).anomalyScore := by
  constructor
  · have h : AnomalyDetector2.getAnomalyScore AnomalyDetector2.mkDetector [[1]] "control"
        = .ok 0 := by
      simp [AnomalyDetector2.getAnomalyScore, AnomalyDetector2.calculateDeviations,
        AnomalyDetector2.deviationsLoop, jsMapGet, AnomalyDetector2.mkDetector,
        AnomalyDetector2.calculateAverage, List.find?, Except.map]
    exact C6_score_nonneg.1 _ _ _ _ h
  · exact C6_score_nonneg.2 ⟨[], [("control", [[1]])]⟩ [[1]] (by decide) (by decide)
      ⟨("control", [[1]]), by decide, by decide⟩

section ClassifyLoopLemmas

/-- When no stored pattern is empty, the classification loop of
`NeuralSignalClassifier.classify` succeeds and equals a pure
best-so-far fold. -/
theorem classifyLoop_ok (s : NeuralSignalClassifier.Stats) :
    ∀ (l : List NeuralPattern) (acc : Option (ℝ × String)),
      (∀ p ∈ l, p.pattern ≠ []) →
      NeuralSignalClassifier.classifyLoop s l acc =
        .ok (l.foldl (fun acc p =>
          minStep acc (NeuralSignalClassifier.statsDistance s
            (NeuralSignalClassifier.analyzeStats p.pattern), p.label)) acc) := by
  intro l
  induction l with
  | nil => intro acc _; rfl
  | cons p rest ih =>
    intro acc h
    have hp : p.pattern ≠ [] := h p (by simp)
    have ha : NeuralSignalClassifier.analyzePattern p.pattern
        = .ok (NeuralSignalClassifier.analyzeStats p.pattern) := by
      rw [NeuralSignalClassifier.analyzePattern, if_neg hp]
    simp only [NeuralSignalClassifier.classifyLoop, ha, List.foldl_cons]
    exact ih _ (fun q hq => h q (List.mem_cons_of_mem _ hq))

end ClassifyLoopLemmas

/-- C9: after training, `classify` returns the label of the stored pattern
with the best score — lowest feature distance for `NeuralSignalClassifier`,
highest `1/(1+|Δmean|)` similarity for `BrainSignalClassifier` — and on an
exact tie the earliest such pattern in insertion order wins: every stored
pattern before the returned one scores strictly worse. -/
theorem C9_first_best_selected :
    (∀ (st : NeuralSignalClassifier.State) (m : Matrix2),
      m.flatten ≠ [] → (∀ p ∈ st.patterns, p.pattern.flatten ≠ []) →
      st.patterns ≠ [] →
      ∃ l1 x l2, st.patterns = l1 ++ x :: l2 ∧
        NeuralSignalClassifier.classify st m = .ok (some x.label) ∧
        (∀ y ∈ l1, NeuralSignalClassifier.queryDistance m x
          < NeuralSignalClassifier.queryDistance m y) ∧
        (∀ y ∈ st.patterns, NeuralSignalClassifier.queryDistance m x
          ≤ NeuralSignalClassifier.queryDistance m y)) ∧
    (∀ (st : BrainSignalClassifier.State) (m : Matrix2),
      st.trainingData ≠ [] → m ≠ [] → rectangular m →
      ¬((m.headD []).length ≠ st.patternDimensions ∧ 0 < st.patternDimensions) →
      ∃ l1 x l2, st.trainingData = l1 ++ x :: l2 ∧
        BrainSignalClassifier.classify st m = .ok (some
          ⟨x.label, BrainSignalClassifier.similarity (matMean m) (matMean x.pattern)⟩) ∧
        (∀ y ∈ l1, BrainSignalClassifier.similarity (matMean m) (matMean y.pattern)
          < BrainSignalClassifier.similarity (matMean m) (matMean x.pattern)) ∧
        (∀ y ∈ st.trainingData,
          BrainSignalClassifier.similarity (matMean m) (matMean y.pattern)
          ≤ BrainSignalClassifier.similarity (matMean m) (matMean x.pattern))) := by
  constructor
  · intro st m hm hpats hne
    have hm' : m ≠ [] := fun h => hm (by rw [h]; rfl)
    obtain ⟨l1, x, l2, hdec, hfold, hlt, hle⟩ :=
      minStep_foldl_spec (fun p : NeuralPattern =>
        (NeuralSignalClassifier.statsDistance (NeuralSignalClassifier.analyzeStats m)
          (NeuralSignalClassifier.analyzeStats p.pattern), p.label)) st.patterns hne
    refine ⟨l1, x, l2, hdec, ?_, hlt, hle⟩
    have ham : NeuralSignalClassifier.analyzePattern m
        = .ok (NeuralSignalClassifier.analyzeStats m) := by
      rw [NeuralSignalClassifier.analyzePattern, if_neg hm']
    rw [NeuralSignalClassifier.classify, if_neg hne, ham]
    show Except.map (fun r => Option.map (fun x => x.2) r)
        (NeuralSignalClassifier.classifyLoop (NeuralSignalClassifier.analyzeStats m)
          st.patterns none) = _
    rw [classifyLoop_ok _ _ _
      (fun p hp hq => hpats p hp (by rw [hq]; rfl))]
    rw [hfold]
    rfl
  · intro st m h1 h2 h3 h4
    obtain ⟨l1, x, l2, hdec, hfold, hlt, hle⟩ :=
      maxStep_foldl_spec (fun tp : NeuralPattern =>
        (BrainSignalClassifier.similarity (matMean m) (matMean tp.pattern), tp.label))
        st.trainingData h1
    refine ⟨l1, x, l2, hdec, ?_, hlt, hle⟩
    rw [BrainSignalClassifier.classify, if_neg h1, if_neg h2,
      if_neg (not_not_intro h3), if_neg h4]
    simp only [hfold]
    rfl

/-- Witness for C9 at concrete two-pattern and one-pattern stores. -/
theorem C9_first_best_selected_witness :
    (∃ l1 x l2, ([⟨[[1]], "a"⟩, ⟨[[2]], "b"⟩] : List NeuralPattern) = l1 ++ x :: l2 ∧
      NeuralSignalClassifier.classify ⟨[⟨[[1]], "a"⟩, ⟨[[2]], "b"⟩]⟩ [[1]]
        = .ok (some x.label) ∧
      (∀ y ∈ l1, NeuralSignalClassifier.queryDistance [[1]] x
        < NeuralSignalClassifier.queryDistance [[1]] y) ∧
      (∀ y ∈ ([⟨[[1]], "a"⟩, ⟨[[2]], "b"⟩] : List NeuralPattern),
        NeuralSignalClassifier.queryDistance [[1]] x
        ≤ NeuralSignalClassifier.queryDistance [[1]] y)) ∧
    (∃ l1 x l2, ([⟨[[1]], "a"⟩] : List NeuralPattern) = l1 ++ x :: l2 ∧
      BrainSignalClassifier.classify ⟨[⟨[[1]], "a"⟩], 1⟩ [[1]] = .ok (some
        ⟨x.label, BrainSignalClassifier.similarity (matMean [[1]]) (matMean x.pattern)⟩) ∧
      (∀ y ∈ l1, BrainSignalClassifier.similarity (matMean [[1]]) (matMean y.pattern)
        < BrainSignalClassifier.similarity (matMean [[1]]) (matMean x.pattern)) ∧
      (∀ y ∈ ([⟨[[1]], "a"⟩] : List NeuralPattern),
        BrainSignalClassifier.similarity (matMean [[1]]) (matMean y.pattern)
        ≤ BrainSignalClassifier.similarity (matMean [[1]]) (matMean x.pattern))) :=
  ⟨C9_first_best_selected.1 ⟨[⟨[[1]], "a"⟩, ⟨[[2]], "b"⟩]⟩ [[1]]
      (by decide) (by decide) (by decide),
    C9_first_best_selected.2 ⟨[⟨[[1]], "a"⟩], 1⟩ [[1]]
      (by decide) (by decide) (by decide) (by decide)⟩
